import Mathlib

/-!
Verification of the oplogc consumer library: a shallow embedding of the
SSE decoder, the in-flight ledger, the consumer ack/read loops, the
reconnect backoff and the position store, with theorems checking the
specification's statements against them.
-/

namespace Oplogc

/-- OperationData is the data part of the SSE event for the operation
(operation.go). The timestamp is an abstract instant. -/
structure OperationData where
  id : String
  type : String
  ref : String
  timestamp : Nat
  parents : List String
  deriving DecidableEq

/-- Operation is one decoded feed record (operation.go): ID and Event
strings and an optional payload. The ack channel is engine plumbing and
carries no data. -/
structure Operation where
  ID : String
  Event : String
  Data : Option OperationData
  deriving DecidableEq

/-- Operation with Go zero values, as readStream constructs its scratch
record. -/
def Operation.empty : Operation := { ID := "", Event := "", Data := none }

/-- Operation.Validate (operation.go lines 36-44): a non-empty event, and a
payload unless the event is reset or live. -/
def Operation.validate (o : Operation) : Bool :=
  if o.Event = "" then false
  else if o.Data.isNone && !(o.Event = "reset" : Bool) && !(o.Event = "live" : Bool) then false
  else true

/-! ## In-flight ledger (src/ife.go) -/

/-- count (src/ife.go lines 19-23): the number of events in flight. -/
def countIds (ids : List String) : Nat := ids.length

/-- push (src/ife.go lines 26-38): append the id unless it is already in
the list. -/
def pushIds (ids : List String) (id : String) : List String :=
  if id ∈ ids then ids else ids ++ [id]

/-- pull (src/ife.go lines 43-57): remove the first occurrence of the id
and return the index it occupied, or -1 when it is absent. -/
def pullIds : List String → String → Int × List String
  | [], _ => (-1, [])
  | eid :: rest, id =>
    if eid = id then ((0 : Int), rest)
    else
      let r := pullIds rest id
      (if r.1 = -1 then (-1 : Int) else r.1 + 1, eid :: r.2)

/-- The in-flight ledger as the consumer engine uses it. The ids list and
the push/pull behaviour are src/ife.go. The locked flag is not among the
repository files. Modelled from the spec: on a reset "the ledger is placed
into a locked mode that blocks further pushes until the reset itself is
acknowledged", so Push is a no-op while locked and Lock and Unlock set the
flag. -/
structure InFlightEvents where
  ids : List String
  locked : Bool
  deriving DecidableEq

/-- NewInFlightEvents: empty unlocked ledger. -/
def InFlightEvents.new : InFlightEvents := { ids := [], locked := false }

/-- Push: src/ife.go push guarded by the spec-modelled locked mode. -/
def InFlightEvents.Push (ife : InFlightEvents) (id : String) : InFlightEvents :=
  if ife.locked then ife else { ife with ids := pushIds ife.ids id }

/-- Pull: src/ife.go pull on the ids list. -/
def InFlightEvents.Pull (ife : InFlightEvents) (id : String) : Int × InFlightEvents :=
  let r := pullIds ife.ids id
  (r.1, { ife with ids := r.2 })

/-- Lock: spec-modelled locked mode entered when a reset is decoded. -/
def InFlightEvents.Lock (ife : InFlightEvents) : InFlightEvents :=
  { ife with locked := true }

/-- Unlock: spec-modelled locked mode left when the reset is acknowledged. -/
def InFlightEvents.Unlock (ife : InFlightEvents) : InFlightEvents :=
  { ife with locked := false }

/-! ## Consumer engine state (src/unnamed/part_003) -/

/-- The consumer fields that the ack and read loops touch: the persisted
position, its dirty flag and the ledger. -/
structure ConsumerState where
  lastId : String
  saved : Bool
  ife : InFlightEvents
  deriving DecidableEq

/-- SetLastId (part_003 lines 289-294): set lastId and mark it not saved. -/
def SetLastId (c : ConsumerState) (id : String) : ConsumerState :=
  { c with lastId := id, saved := false }

/-- One iteration of the ack-consuming control loop of Consumer.Start
(part_003 lines 179-186): a reset acknowledgement unlocks the ledger; the
acknowledged id is pulled and, only when it occupied index 0, lastId is
advanced to it. -/
def ackStep (c : ConsumerState) (op : Operation) : ConsumerState :=
  let c1 := if op.Event = "reset" then { c with ife := c.ife.Unlock } else c
  let r := c1.ife.Pull op.ID
  let c2 := { c1 with ife := r.2 }
  if r.1 = 0 then SetLastId c2 op.ID else c2

/-- The ledger updates of one successfully decoded operation in
Consumer.readStream (part_003 lines 237-242): push the id, then lock the
ledger when the event is reset. -/
def readStep (c : ConsumerState) (op : Operation) : ConsumerState :=
  let c1 := { c with ife := c.ife.Push op.ID }
  if op.Event = "reset" then { c1 with ife := c1.ife.Lock } else c1

/-! ## Reconnect backoff (part_003 lines 212-252) -/

/-- One backoff update of the reconnect loop (part_003 lines 225-227):
the delay doubles whenever it is still under 30 seconds. Delays are whole
seconds. -/
def backoffStep (b : Nat) : Nat := if b < 30 then b * 2 else b

/-- The backoff readStream starts with (line 212: one second). -/
def initialBackoff : Nat := 1

/-- The backoff value after an operation was decoded and delivered
(line 251: reset to one second). -/
def backoffAfterDelivery : Nat := 1

/-- The delays slept by n consecutive failed reconnect attempts entered
with backoff b: each attempt sleeps the current backoff, then updates it
(part_003 lines 223-233). -/
def burstDelays (b : Nat) : Nat → List Nat
  | 0 => []
  | n + 1 => b :: burstDelays (backoffStep b) n

/-! ## SSE decoder (src/unnamed/part_000) -/

/-- The decoder error taxonomy (part_000 lines 12-18). -/
inductive DecodeErr where
  | incompleteEvent
  | invalidEvent
  | connectionClosed
  deriving DecidableEq

/-- Split at the first colon: the pieces before and after it, or none when
the line has no colon. This is strings.SplitN(line, ":", 2) on the
character list. -/
def splitOnFirstColon : List Char → Option (List Char × List Char)
  | [] => none
  | c :: cs =>
    if c = ':' then some ([], cs)
    else
      match splitOnFirstColon cs with
      | none => none
      | some r => some (c :: r.1, r.2)

/-- The field and value of a non-comment line (part_000 lines 55-59): split
on the first colon, no colon means the whole line is the field with an
empty value, and one leading space of the value is stripped. -/
def fieldValue (line : String) : String × String :=
  match splitOnFirstColon line.data with
  | none => (line, "")
  | some r =>
    match r.2 with
    | ' ' :: vs => (String.mk r.1, String.mk vs)
    | vs => (String.mk r.1, String.mk vs)

/-- A line beginning with a colon is a comment (part_000 lines 50-53). -/
def isCommentLine (line : String) : Bool :=
  match line.data with
  | ':' :: _ => true
  | _ => false

/-- The read loop of decoder.next (part_000 lines 37-72). The stream is
the list of newline-terminated lines, each without its final newline
(bufio ReadString reports an error on a stream that ends without a newline
and the code discards the partial line, so a trailing fragment behaves
exactly like the end of the list). jd models json.Unmarshal of a data
value into the payload pointer: none is a rejected value that leaves the
target untouched, some d is success storing d, where d = none renders the
JSON value null. The invalid-event error the source assigns on a rejected
data value is dead: its break leaves only the switch statement and err is
overwritten by the next ReadString, so the loop just continues with the
operation unchanged. -/
def nextLoop (jd : String → Option (Option OperationData)) :
    Operation → Bool → List String → Option DecodeErr × Operation × List String
  | op, _, [] => (some DecodeErr.connectionClosed, op, [])
  | op, started, line :: rest =>
    if line = "" then
      if started then (none, op, rest) else nextLoop jd op started rest
    else if isCommentLine line then nextLoop jd op started rest
    else
      let fv := fieldValue line
      if fv.1 = "id" then nextLoop jd { op with ID := fv.2 } true rest
      else if fv.1 = "event" then nextLoop jd { op with Event := fv.2 } true rest
      else if fv.1 = "data" then
        match jd fv.2 with
        | none => nextLoop jd op true rest
        | some d => nextLoop jd { op with Data := d } true rest
      else nextLoop jd op true rest

/-- decoder.next (part_000 lines 29-81): reset Event and Data (never ID),
run the read loop, then flag an empty event as incomplete, and finally
override the error with invalidEvent whenever the operation fails
Validate. Returns the error, the operation scratch state and the
unconsumed rest of the stream. -/
def next (jd : String → Option (Option OperationData)) (op : Operation)
    (input : List String) : Option DecodeErr × Operation × List String :=
  let r := nextLoop jd { op with Event := "", Data := none } false input
  let e1 := match r.1 with
    | none => if r.2.1.Event = "" then some DecodeErr.incompleteEvent else none
    | some e => some e
  let e2 := if r.2.1.validate then e1 else some DecodeErr.invalidEvent
  (e2, r.2.1, r.2.2)

/-- The lines the read loop consumes from a stream, starting from the
given started flag; it mirrors the control flow of nextLoop, which does
not depend on the operation or on the json oracle. -/
def consumedLines (started : Bool) : List String → List String
  | [] => []
  | line :: rest =>
    if line = "" then
      if started then [line] else line :: consumedLines started rest
    else if isCommentLine line then line :: consumedLines started rest
    else line :: consumedLines true rest

/-- Whether the read loop runs off the end of the stream before a record
boundary, starting from the given started flag. -/
def hitsEOF (started : Bool) : List String → Bool
  | [] => true
  | line :: rest =>
    if line = "" then
      if started then false else hitsEOF started rest
    else if isCommentLine line then hitsEOF started rest
    else hitsEOF true rest

/-- A field line whose field is id: the only kind of line on which the
read loop writes the operation's ID. -/
def isIdLine (line : String) : Bool :=
  !(line = "" : Bool) && !(isCommentLine line) && ((fieldValue line).1 = "id" : Bool)

/-- The value carried by the most recent id line of the list, or the
default when the list has none. -/
def idUpdates (d : String) (ls : List String) : String :=
  ls.foldl (fun acc l => if isIdLine l then (fieldValue l).2 else acc) d

/-! ## Position store (part_003 lines 350-376) -/

/-- The load error of the position store: the state file holds invalid
data. -/
inductive LoadErr where
  | corruptState
  deriving DecidableEq

/-- The two subscription options loadLastEventID reads (part_003 lines
19-30). -/
structure Options where
  StateFile : String
  AllowReplication : Bool
  deriving DecidableEq

/-- A lowercase hexadecimal character. -/
def isHexLowerChar (c : Char) : Bool :=
  c.isDigit || ('a' ≤ c && c ≤ 'f')

/-- The anchored pattern of loadLastEventID (part_003 line 370): zero to
thirteen decimal digits, or exactly twenty-four lowercase hexadecimal
characters. -/
def stateTokenMatch (s : String) : Bool :=
  (s.length ≤ 13 && s.data.all Char.isDigit)
    || (s.length = 24 && s.data.all isHexLowerChar)

/-- The token pattern exactly as the claim words it: one to thirteen
decimal digits, or exactly twenty-four hex characters. Stated from the
claim's words, for comparison with stateTokenMatch from the source. -/
def claimTokenPattern (s : String) : Bool :=
  (1 ≤ s.length && s.length ≤ 13 && s.data.all Char.isDigit)
    || (s.length = 24 && s.data.all isHexLowerChar)

/-- loadLastEventID (part_003 lines 350-376). The file argument is the
content of the state file when one exists at the configured path. With no
configured path the id is empty; with no file it is "0" exactly when
replication is allowed; with content it is the content, after the pattern
check. -/
def loadLastEventID (opts : Options) (file : Option String) :
    Except LoadErr String :=
  if opts.StateFile = "" then Except.ok ""
  else
    match file with
    | none => if opts.AllowReplication then Except.ok "0" else Except.ok ""
    | some content =>
      if stateTokenMatch content then Except.ok content
      else Except.error LoadErr.corruptState

/-! ## Connect response classification (part_003 lines 297-340) -/

/-- The connect error taxonomy: failed resume, denied access, or any other
non-200 status with its body text. -/
inductive ConnectErr where
  | resumeFailed
  | accessDenied
  | httpError (status : Nat) (body : String)
  deriving DecidableEq

/-- The response data connect inspects: the echoed Last-Event-ID header
(empty when absent), the status code and the body text. -/
structure HttpResponse where
  lastEventID : String
  status : Nat
  body : String
  deriving DecidableEq

/-- The response classification of Consumer.connect (part_003 lines
321-339), in source order: a requested position that is not echoed fails
the resume, then 401 and 403 are denied access, then any other non-200
status is a generic error carrying status and body, and otherwise the body
becomes the stream. -/
def classifyResponse (lastId : String) (res : HttpResponse) :
    Except ConnectErr String :=
  if ¬ lastId = "" ∧ ¬ res.lastEventID = lastId then
    Except.error ConnectErr.resumeFailed
  else if res.status = 403 ∨ res.status = 401 then
    Except.error ConnectErr.accessDenied
  else if ¬ res.status = 200 then
    Except.error (ConnectErr.httpError res.status res.body)
  else Except.ok res.body

/-! ## Concrete material for the claims -/

/-- A json oracle for the concrete streams of this file, matching
json.Unmarshal on the values those streams use: the empty JSON object
parses to the zero payload and the value x is rejected (it is not valid
JSON). -/
def jdSample (s : String) : Option (Option OperationData) :=
  if s = "\x7b\x7d" then
    some (some { id := "", type := "", ref := "", timestamp := 0, parents := [] })
  else none

/-- The payload of the demonstration operations. -/
def demoPayload : OperationData :=
  { id := "", type := "", ref := "", timestamp := 0, parents := [] }

/-- A demonstration insert operation with the given id. -/
def demoOp (i : String) : Operation :=
  { ID := i, Event := "insert", Data := some demoPayload }

/-- A demonstration reset operation. -/
def demoReset : Operation := { ID := "R", Event := "reset", Data := none }

/-- A consumer state before the demonstration scenarios: position L,
saved, empty unlocked ledger. -/
def demoStart : ConsumerState :=
  { lastId := "L", saved := true, ife := InFlightEvents.new }

/-- The state after pushing the ids A, B, C in order. -/
def demoLoaded : ConsumerState :=
  readStep (readStep (readStep demoStart (demoOp "A")) (demoOp "B")) (demoOp "C")

/-- The state after additionally acknowledging B. -/
def demoAfterB : ConsumerState := ackStep demoLoaded (demoOp "B")

/-- The state after additionally acknowledging B then C. -/
def demoAfterBC : ConsumerState := ackStep demoAfterB (demoOp "C")

/-- The state after additionally acknowledging B, C, then A. -/
def demoAfterBCA : ConsumerState := ackStep demoAfterBC (demoOp "A")

/-- The state after decoding a reset and then attempting to decode X. -/
def demoLockedX : ConsumerState :=
  readStep (readStep demoStart demoReset) (demoOp "X")

/-- The state after additionally acknowledging the reset and decoding X
again. -/
def demoUnlockedX : ConsumerState :=
  readStep (ackStep demoLockedX demoReset) (demoOp "X")

/-- The two-record stream of the stale-id demonstration: the first record
carries an id line, the second does not. -/
def demoStream : List String :=
  ["id: 7", "event: insert", "data: \x7b\x7d", "",
   "event: insert", "data: \x7b\x7d", ""]

/-- The first decode of the stale-id demonstration. -/
def demoFirst : Option DecodeErr × Operation × List String :=
  next jdSample Operation.empty demoStream

/-- The second decode of the stale-id demonstration, reusing the scratch
operation exactly as readStream does. -/
def demoSecond : Option DecodeErr × Operation × List String :=
  next jdSample demoFirst.2.1 demoFirst.2.2

/-! ## Helper lemmas -/

/-- Pulling the head id returns index zero and the tail. -/
theorem pullIds_head_eq (id : String) (rest : List String) :
    pullIds (id :: rest) id = (0, rest) := by
  simp [pullIds]

/-- Pulling an absent id returns the sentinel and the unchanged list. -/
theorem pullIds_not_mem (ids : List String) (id : String) (h : ¬ id ∈ ids) :
    pullIds ids id = (-1, ids) := by
  induction ids with
  | nil => rfl
  | cons e rest ih =>
    have he : ¬ e = id := by
      intro hh
      exact h (by simp [hh])
    have h2 : ¬ id ∈ rest := by
      intro hh
      exact h (List.mem_cons_of_mem _ hh)
    simp [pullIds, he, ih h2]

/-- pull returns index zero exactly when the id heads the list. -/
theorem pullIds_fst_zero_iff (ids : List String) (id : String) :
    (pullIds ids id).1 = 0 ↔ ids.head? = some id := by
  cases ids with
  | nil => simp [pullIds]
  | cons e rest =>
    by_cases he : e = id
    · subst he
      simp [pullIds]
    · simp only [pullIds, if_neg he, List.head?_cons]
      constructor
      · intro h0
        exfalso
        by_cases hm : (pullIds rest id).1 = -1
        · rw [if_pos hm] at h0
          omega
        · rw [if_neg hm] at h0
          omega
      · intro h0
        exact absurd (Option.some.inj h0) he

/-- The lastId written by one ack iteration: the acked id when it occupied
index zero of the ledger, the old value otherwise. -/
theorem ackStep_lastId (c : ConsumerState) (op : Operation) :
    (ackStep c op).lastId =
      if (pullIds c.ife.ids op.ID).1 = 0 then op.ID else c.lastId := by
  by_cases hr : op.Event = "reset" <;>
    simp [ackStep, InFlightEvents.Pull, InFlightEvents.Unlock, SetLastId, hr] <;>
    split <;> rfl

/-- An ack that advances the position also marks it dirty. -/
theorem ackStep_saved (c : ConsumerState) (op : Operation)
    (h : (pullIds c.ife.ids op.ID).1 = 0) : (ackStep c op).saved = false := by
  by_cases hr : op.Event = "reset" <;>
    simp [ackStep, InFlightEvents.Pull, InFlightEvents.Unlock, SetLastId, hr, h]

/-- A locked ledger ignores the push of a decoded operation and stays
locked. -/
theorem readStep_locked (c : ConsumerState) (op : Operation)
    (h : c.ife.locked = true) :
    (readStep c op).ife.ids = c.ife.ids ∧ (readStep c op).ife.locked = true := by
  by_cases hr : op.Event = "reset" <;>
    simp [readStep, InFlightEvents.Push, InFlightEvents.Lock, h, hr]

/-- While the ledger is locked, any run of decoded operations leaves its
id sequence unchanged. -/
theorem foldl_readStep_locked (ops : List Operation) (c : ConsumerState)
    (h : c.ife.locked = true) :
    (ops.foldl readStep c).ife.ids = c.ife.ids := by
  induction ops generalizing c with
  | nil => rfl
  | cons op rest ih =>
    have h2 := readStep_locked c op h
    rw [List.foldl_cons, ih _ h2.2, h2.1]

/-- Once the delay reached 32 seconds it stays there. -/
theorem burstDelays_from_32 (k : Nat) :
    burstDelays 32 k = List.replicate k 32 := by
  induction k with
  | zero => rfl
  | succ n ih =>
    simp [burstDelays, backoffStep, ih, List.replicate]

/-- The read loop reports none or a closed connection, never another
error. -/
theorem nextLoop_fst (jd : String → Option (Option OperationData))
    (op : Operation) (started : Bool) (ls : List String) :
    (nextLoop jd op started ls).1 = none ∨
      (nextLoop jd op started ls).1 = some DecodeErr.connectionClosed := by
  induction ls generalizing op started with
  | nil => exact Or.inr rfl
  | cons line rest ih =>
    by_cases hb : line = ""
    · by_cases hs : started = true
      · subst hs
        simp [nextLoop, hb]
      · have hs2 : started = false := by
          cases started
          · rfl
          · exact absurd rfl hs
        subst hs2
        simpa [nextLoop, hb] using ih op false
    · by_cases hc : isCommentLine line = true
      · simpa [nextLoop, hb, hc] using ih op started
      · by_cases hid : (fieldValue line).1 = "id"
        · simpa [nextLoop, hb, hc, hid] using ih _ true
        · by_cases hev : (fieldValue line).1 = "event"
          · simpa [nextLoop, hb, hc, hid, hev] using ih _ true
          · by_cases hda : (fieldValue line).1 = "data"
            · cases hj : jd (fieldValue line).2 with
              | none => simpa [nextLoop, hb, hc, hid, hev, hda, hj] using ih op true
              | some d => simpa [nextLoop, hb, hc, hid, hev, hda, hj] using ih _ true
            · simpa [nextLoop, hb, hc, hid, hev, hda] using ih op true

/-- When the stream runs out before a boundary the read loop reports a
closed connection. -/
theorem nextLoop_closed_of_hitsEOF (jd : String → Option (Option OperationData))
    (op : Operation) (started : Bool) (ls : List String)
    (h : hitsEOF started ls = true) :
    (nextLoop jd op started ls).1 = some DecodeErr.connectionClosed := by
  induction ls generalizing op started with
  | nil => rfl
  | cons line rest ih =>
    by_cases hb : line = ""
    · by_cases hs : started = true
      · subst hs
        simp [hitsEOF, hb] at h
      · have hs2 : started = false := by
          cases started
          · rfl
          · exact absurd rfl hs
        subst hs2
        simp only [hitsEOF, if_pos hb, if_neg (Bool.false_ne_true)] at h
        simpa [nextLoop, hb] using ih op false h
    · by_cases hc : isCommentLine line = true
      · simp only [hitsEOF, if_neg hb, if_pos hc] at h
        simpa [nextLoop, hb, hc] using ih op started h
      · simp only [hitsEOF, if_neg hb, if_neg hc] at h
        by_cases hid : (fieldValue line).1 = "id"
        · simpa [nextLoop, hb, hc, hid] using ih _ true h
        · by_cases hev : (fieldValue line).1 = "event"
          · simpa [nextLoop, hb, hc, hid, hev] using ih _ true h
          · by_cases hda : (fieldValue line).1 = "data"
            · cases hj : jd (fieldValue line).2 with
              | none => simpa [nextLoop, hb, hc, hid, hev, hda, hj] using ih op true h
              | some d => simpa [nextLoop, hb, hc, hid, hev, hda, hj] using ih _ true h
            · simpa [nextLoop, hb, hc, hid, hev, hda] using ih op true h

/-- A validating operation has a non-empty event. -/
theorem validate_event_ne_empty (op : Operation) (h : op.validate = true) :
    ¬ op.Event = "" := by
  intro he
  simp [Operation.validate, he] at h

/-- idUpdates over nil. -/
theorem idUpdates_nil (d : String) : idUpdates d [] = d := rfl

/-- idUpdates over a cons. -/
theorem idUpdates_cons (d l : String) (ls : List String) :
    idUpdates d (l :: ls) =
      idUpdates (if isIdLine l then (fieldValue l).2 else d) ls := rfl

/-- idUpdates of a list without id lines is the default. -/
theorem idUpdates_no_id (d : String) (ls : List String)
    (h : ∀ l ∈ ls, isIdLine l = false) : idUpdates d ls = d := by
  induction ls generalizing d with
  | nil => rfl
  | cons l rest ih =>
    rw [idUpdates_cons, if_neg, ih]
    · intro x hx
      exact h x (List.mem_cons_of_mem _ hx)
    · simp [h l (List.mem_cons_self l rest)]

/-- The operation's ID after the read loop is the value of the most recent
id line among the consumed lines, or the incoming ID when there is none. -/
theorem nextLoop_ID (jd : String → Option (Option OperationData))
    (op : Operation) (started : Bool) (ls : List String) :
    (nextLoop jd op started ls).2.1.ID =
      idUpdates op.ID (consumedLines started ls) := by
  induction ls generalizing op started with
  | nil => rfl
  | cons line rest ih =>
    by_cases hb : line = ""
    · by_cases hs : started = true
      · subst hs
        subst hb
        simp [nextLoop, consumedLines, idUpdates_cons, idUpdates_nil, isIdLine]
      · have hs2 : started = false := by
          cases started
          · rfl
          · exact absurd rfl hs
        subst hs2
        have hi : isIdLine line = false := by
          simp [isIdLine, hb]
        simp only [nextLoop, consumedLines, if_pos hb, if_neg (Bool.false_ne_true),
          idUpdates_cons, hi, if_neg (Bool.false_ne_true)]
        simpa [hi] using ih op false
    · by_cases hc : isCommentLine line = true
      · have hi : isIdLine line = false := by
          simp [isIdLine, hc]
        simp only [nextLoop, consumedLines, if_neg hb, if_pos hc, idUpdates_cons]
        simpa [hi] using ih op started
      · by_cases hid : (fieldValue line).1 = "id"
        · have hi : isIdLine line = true := by
            simp [isIdLine, hb, hc, hid]
          simp only [nextLoop, consumedLines, if_neg hb, if_neg hc, if_pos hid,
            idUpdates_cons]
          simpa [hi] using ih { op with ID := (fieldValue line).2 } true
        · by_cases hev : (fieldValue line).1 = "event"
          · have hi : isIdLine line = false := by
              simp [isIdLine, hid]
            simp only [nextLoop, consumedLines, if_neg hb, if_neg hc, if_neg hid,
              if_pos hev, idUpdates_cons]
            simpa [hi] using ih { op with Event := (fieldValue line).2 } true
          · by_cases hda : (fieldValue line).1 = "data"
            · have hi : isIdLine line = false := by
                simp [isIdLine, hid]
              cases hj : jd (fieldValue line).2 with
              | none =>
                simp only [nextLoop, consumedLines, if_neg hb, if_neg hc, if_neg hid,
                  if_neg hev, if_pos hda, hj, idUpdates_cons]
                simpa [hi] using ih op true
              | some d =>
                simp only [nextLoop, consumedLines, if_neg hb, if_neg hc, if_neg hid,
                  if_neg hev, if_pos hda, hj, idUpdates_cons]
                simpa [hi] using ih { op with Data := d } true
            · have hi : isIdLine line = false := by
                simp [isIdLine, hid]
              simp only [nextLoop, consumedLines, if_neg hb, if_neg hc, if_neg hid,
                if_neg hev, if_neg hda, idUpdates_cons]
              simpa [hi] using ih op true

/-- next never reports incompleteEvent: whenever the event is empty the
final validity check overrides the error with invalidEvent. -/
theorem next_ne_incomplete (jd : String → Option (Option OperationData))
    (op : Operation) (input : List String) :
    ¬ (next jd op input).1 = some DecodeErr.incompleteEvent := by
  intro hEq
  simp only [next] at hEq
  by_cases hv : (nextLoop jd { op with Event := "", Data := none } false input).2.1.validate = true
  · rcases nextLoop_fst jd { op with Event := "", Data := none } false input with h1 | h1
    · by_cases he : (nextLoop jd { op with Event := "", Data := none } false input).2.1.Event = ""
      · exact validate_event_ne_empty _ hv he
      · simp [h1, he, hv] at hEq
    · simp [h1, hv] at hEq
  · simp [hv] at hEq

/-- When the stream ends before a boundary, next reports connectionClosed
when the partially decoded operation validates, and invalidEvent
otherwise. -/
theorem next_fst_of_hitsEOF (jd : String → Option (Option OperationData))
    (op : Operation) (input : List String) (h : hitsEOF false input = true) :
    (next jd op input).1 =
      some (if (next jd op input).2.1.validate then DecodeErr.connectionClosed
            else DecodeErr.invalidEvent) := by
  have hc := nextLoop_closed_of_hitsEOF jd { op with Event := "", Data := none }
    false input h
  simp only [next, hc]
  by_cases hv : (nextLoop jd { op with Event := "", Data := none } false input).2.1.validate = true <;>
    simp [hv]

/-! ## The claims -/

/-- C1: lastId is advanced by an acknowledgement exactly when the
acknowledged id occupied index 0 of the ledger at the moment of the pull
(pull returns 0 precisely when the id heads the sequence); it is then set
to the acked id and marked dirty. Concretely, with A, B, C pushed in order
and acked in the order B, C, A, lastId stays at L through the acks of B
and C and becomes A, not C, when A is acked. -/
theorem C1_position_advances_only_from_ledger_head :
    (∀ c op, (ackStep c op).lastId =
        if (pullIds c.ife.ids op.ID).1 = 0 then op.ID else c.lastId)
  ∧ (∀ c op, (pullIds c.ife.ids op.ID).1 = 0 → (ackStep c op).saved = false)
  ∧ (∀ ids id, (pullIds ids id).1 = 0 ↔ ids.head? = some id)
  ∧ demoLoaded.ife.ids = ["A", "B", "C"]
  ∧ demoAfterB.lastId = "L"
  ∧ demoAfterBC.lastId = "L"
  ∧ demoAfterBCA.lastId = "A"
  ∧ ("A" : String) ≠ "C" :=
  ⟨ackStep_lastId, ackStep_saved, pullIds_fst_zero_iff,
   by decide, by decide, by decide, by decide, by decide⟩

/-- Witness for C1: acking A in the demonstration state where A heads the
ledger marks the position dirty. -/
theorem C1_witness_ack_of_head_marks_dirty :
    (ackStep demoAfterBC (demoOp "A")).saved = false :=
  C1_position_advances_only_from_ledger_head.2.1 demoAfterBC (demoOp "A") (by decide)

/-- C2: while the ledger is locked, decoded operations do not change its
id sequence; decoding a reset locks it; acknowledging the reset unlocks
it. Hence after a decoded reset no later decoded id appears until the
reset is acked, and afterwards pushes take effect: with reset R then X
decoded, the ledger holds only R, and once R is acked a new decode of X
stores X. -/
theorem C2_reset_blocks_pushes_until_acked :
    (∀ c op, c.ife.locked = true → (readStep c op).ife.ids = c.ife.ids)
  ∧ (∀ c op, op.Event = "reset" → (readStep c op).ife.locked = true)
  ∧ (∀ c op, op.Event = "reset" → (ackStep c op).ife.locked = false)
  ∧ (∀ c : ConsumerState, c.ife.locked = true →
      ∀ ops : List Operation, (ops.foldl readStep c).ife.ids = c.ife.ids)
  ∧ demoLockedX.ife.ids = ["R"]
  ∧ demoLockedX.ife.locked = true
  ∧ demoUnlockedX.ife.ids = ["X"] := by
  refine ⟨?_, ?_, ?_, ?_, by decide, by decide, by decide⟩
  · intro c op h
    exact (readStep_locked c op h).1
  · intro c op hr
    simp [readStep, hr, InFlightEvents.Lock]
  · intro c op hr
    by_cases h0 : (pullIds c.ife.ids op.ID).1 = 0 <;>
      simp [ackStep, hr, InFlightEvents.Unlock, InFlightEvents.Pull, SetLastId, h0]
  · intro c h ops
    exact foldl_readStep_locked ops c h

/-- Witness for C2: pushing Y onto the locked demonstration ledger leaves
its id sequence unchanged. -/
theorem C2_witness_locked_push_ignored :
    (readStep demoLockedX (demoOp "Y")).ife.ids = demoLockedX.ife.ids :=
  C2_reset_blocks_pushes_until_acked.1 demoLockedX (demoOp "Y") (by decide)

/-- C3 (amended): the reconnect delays on consecutive failures are
1, 2, 4, 8, 16, 32, 32, ... seconds: the delay doubles whenever it is
still below 30 seconds, so it overshoots the cap to 32 and stays there;
after one success the delay used for the next failure is back to 1
second. -/
theorem C3_backoff_overshoots_cap_to_32 :
    burstDelays initialBackoff 7 = [1, 2, 4, 8, 16, 32, 32]
  ∧ (∀ n, burstDelays initialBackoff (n + 7) =
      [1, 2, 4, 8, 16, 32, 32] ++ List.replicate n 32)
  ∧ burstDelays backoffAfterDelivery 2 = [1, 2] := by
  refine ⟨by decide, ?_, by decide⟩
  intro n
  have h : burstDelays initialBackoff (n + 7) =
      [1, 2, 4, 8, 16] ++ (32 :: burstDelays 32 (n + 1)) := rfl
  rw [h, burstDelays_from_32]
  rfl

/-- Counterexample for C3: the sixth delay slept is 32 seconds, not the 30
seconds the claim states. -/
theorem C3_cex_sixth_delay_is_32 :
    burstDelays initialBackoff 6 = [1, 2, 4, 8, 16, 32]
  ∧ ([1, 2, 4, 8, 16, 32] : List Nat) ≠ [1, 2, 4, 8, 16, 30] :=
  ⟨by decide, by decide⟩

/-- C4: on the record with one id field and no event field, next returns
invalidEvent rather than incompleteEvent; indeed incompleteEvent is
unreachable for every stream, because the final validity check overrides
it (an operation with an empty event never validates). -/
theorem C4_incomplete_event_unreachable :
    (next jdSample Operation.empty ["id: 1", ""]).1 = some DecodeErr.invalidEvent
  ∧ ∀ jd op input, ¬ (next jd op input).1 = some DecodeErr.incompleteEvent :=
  ⟨by decide, next_ne_incomplete⟩

/-- C5 (amended): when the stream ends before a record boundary next
reports connectionClosed only when the partially decoded operation passes
the validity check, and invalidEvent otherwise; in particular the stream
that ends immediately yields invalidEvent, since the cleared event field
fails validation. -/
theorem C5_eof_error_depends_on_validity :
    (∀ jd op input, hitsEOF false input = true →
      (next jd op input).1 =
        some (if (next jd op input).2.1.validate then DecodeErr.connectionClosed
              else DecodeErr.invalidEvent))
  ∧ (next jdSample Operation.empty ["event: live"]).1 = some DecodeErr.connectionClosed
  ∧ (next jdSample Operation.empty []).1 = some DecodeErr.invalidEvent :=
  ⟨next_fst_of_hitsEOF, by decide, by decide⟩

/-- Witness for C5: the empty stream hits the end of the stream and next
reports the error selected by the validity of the scratch operation. -/
theorem C5_witness_empty_stream :
    (next jdSample Operation.empty []).1 =
      some (if (next jdSample Operation.empty []).2.1.validate then
              DecodeErr.connectionClosed
            else DecodeErr.invalidEvent) :=
  C5_eof_error_depends_on_validity.1 jdSample Operation.empty [] (by decide)

/-- Counterexample for C5: on the stream that ends immediately next
returns invalidEvent, which is not connectionClosed. -/
theorem C5_cex_empty_stream :
    (next jdSample Operation.empty []).1 = some DecodeErr.invalidEvent
  ∧ (some DecodeErr.invalidEvent : Option DecodeErr) ≠ some DecodeErr.connectionClosed :=
  ⟨by decide, by decide⟩

/-- C6: the value x is rejected by the json oracle, yet next succeeds on a
reset record and on a live record carrying it (the error assigned in the
data case is lost when the break leaves only the switch); for a plain
insert record the same value does yield invalidEvent. -/
theorem C6_bad_data_swallowed_for_control_events :
    jdSample "x" = none
  ∧ (next jdSample Operation.empty ["event: reset", "data: x", ""]).1 = none
  ∧ (next jdSample Operation.empty ["event: live", "data: x", ""]).1 = none
  ∧ (next jdSample Operation.empty ["event: insert", "data: x", ""]).1 =
      some DecodeErr.invalidEvent :=
  ⟨by decide, by decide, by decide, by decide⟩

/-- C7 (amended): with no configured path loadLastEventID returns the
empty token; with a path and no file it returns "0" exactly when
replication is allowed, else empty; with content it succeeds exactly when
the content matches zero to thirteen decimal digits or exactly
twenty-four lowercase hex characters, failing with the corrupt-state
error otherwise — in particular the empty content is accepted, though the
claimed one-to-thirteen-digit pattern rejects it. -/
theorem C7_load_accepts_zero_to_thirteen_digits :
    (∀ b f, loadLastEventID { StateFile := "", AllowReplication := b } f =
        Except.ok "")
  ∧ (∀ p b, ¬ p = "" →
      loadLastEventID { StateFile := p, AllowReplication := b } none =
        Except.ok (if b then "0" else ""))
  ∧ (∀ p b c, ¬ p = "" →
      loadLastEventID { StateFile := p, AllowReplication := b } (some c) =
        if stateTokenMatch c then Except.ok c
        else Except.error LoadErr.corruptState)
  ∧ stateTokenMatch "" = true
  ∧ claimTokenPattern "" = false := by
  refine ⟨?_, ?_, ?_, by decide, by decide⟩
  · intro b f
    simp [loadLastEventID]
  · intro p b hp
    cases b <;> simp [loadLastEventID, hp]
  · intro p b c hp
    simp [loadLastEventID, hp]

/-- Witness for C7: a configured path with no file and replication allowed
loads the full-replication token "0". -/
theorem C7_witness_missing_file_with_replication :
    loadLastEventID { StateFile := "state", AllowReplication := true } none =
      Except.ok "0" :=
  C7_load_accepts_zero_to_thirteen_digits.2.1 "state" true (by decide)

/-- Counterexample for C7: the empty state-file content is accepted by the
code, while the claimed pattern of one to thirteen digits rejects it. -/
theorem C7_cex_empty_content_accepted :
    loadLastEventID { StateFile := "state", AllowReplication := false } (some "") =
      Except.ok ""
  ∧ claimTokenPattern "" = false :=
  ⟨rfl, by decide⟩

/-- C8: connect classifies the response in order: a requested non-empty
position whose echo differs fails the resume regardless of the status
code; otherwise status 401 or 403 is denied access; otherwise any non-200
status is a generic error carrying the status and body; otherwise the
body becomes the stream. -/
theorem C8_connect_response_classification :
    (∀ lastId res, ¬ lastId = "" → ¬ res.lastEventID = lastId →
        classifyResponse lastId res = Except.error ConnectErr.resumeFailed)
  ∧ (∀ lastId res, (lastId = "" ∨ res.lastEventID = lastId) →
        (res.status = 401 ∨ res.status = 403) →
        classifyResponse lastId res = Except.error ConnectErr.accessDenied)
  ∧ (∀ lastId res, (lastId = "" ∨ res.lastEventID = lastId) →
        ¬ res.status = 401 → ¬ res.status = 403 → ¬ res.status = 200 →
        classifyResponse lastId res =
          Except.error (ConnectErr.httpError res.status res.body))
  ∧ (∀ lastId res, (lastId = "" ∨ res.lastEventID = lastId) →
        res.status = 200 →
        classifyResponse lastId res = Except.ok res.body) := by
  refine ⟨?_, ?_, ?_, ?_⟩
  · intro lastId res h1 h2
    simp [classifyResponse, h1, h2]
  · intro lastId res h hs
    have h1 : ¬ (¬ lastId = "" ∧ ¬ res.lastEventID = lastId) := by
      rcases h with h | h <;> simp [h]
    rcases hs with hs | hs <;> simp [classifyResponse, h1, hs]
  · intro lastId res h h401 h403 h200
    have h1 : ¬ (¬ lastId = "" ∧ ¬ res.lastEventID = lastId) := by
      rcases h with h | h <;> simp [h]
    simp [classifyResponse, h1, h401, h403, h200]
  · intro lastId res h h200
    have h1 : ¬ (¬ lastId = "" ∧ ¬ res.lastEventID = lastId) := by
      rcases h with h | h <;> simp [h]
    simp [classifyResponse, h1, h200]

/-- Witness for C8: a requested position "42" that is not echoed fails
with resumeFailed even on a 200 response. -/
theorem C8_witness_resume_failure_on_status_200 :
    classifyResponse "42" { lastEventID := "", status := 200, body := "ok" } =
      Except.error ConnectErr.resumeFailed :=
  C8_connect_response_classification.1 "42"
    { lastEventID := "", status := 200, body := "ok" } (by decide) (by decide)

/-- C9: pushing an id already present leaves the id sequence and the
count unchanged; pulling an absent id returns the sentinel -1 and leaves
the sequence unchanged; pulling the id at position 0 returns index 0 and
removes exactly that id. -/
theorem C9_ledger_push_pull_algebra :
    (∀ ids id, id ∈ ids →
        pushIds ids id = ids ∧ countIds (pushIds ids id) = countIds ids)
  ∧ (∀ ids id, ¬ id ∈ ids → pullIds ids id = (-1, ids))
  ∧ (∀ id rest, pullIds (id :: rest) id = (0, rest)) := by
  refine ⟨?_, pullIds_not_mem, pullIds_head_eq⟩
  intro ids id h
  constructor <;> simp [pushIds, h]

/-- Witness for C9: pulling the absent id Z returns the sentinel and the
unchanged sequence. -/
theorem C9_witness_pull_absent_id :
    pullIds ["A", "B"] "Z" = (-1, ["A", "B"]) :=
  C9_ledger_push_pull_algebra.2.1 ["A", "B"] "Z" (by decide)

/-- C10: next resets only the event and data fields, never the id: the
decoded operation's ID is the value of the most recent id line among the
consumed lines, falling back to the incoming scratch ID; so a record
without an id line carries the most recent id seen earlier by the same
decoder, as the two-record demonstration stream shows (the second record
has no id line yet its operation carries the id 7 of the first). -/
theorem C10_decoder_never_resets_id :
    (∀ jd op input, (next jd op input).2.1.ID =
        idUpdates op.ID (consumedLines false input))
  ∧ (∀ jd op input, (∀ l ∈ consumedLines false input, isIdLine l = false) →
        (next jd op input).2.1.ID = op.ID)
  ∧ demoFirst.1 = none
  ∧ demoFirst.2.1.ID = "7"
  ∧ (∀ l ∈ consumedLines false demoFirst.2.2, isIdLine l = false)
  ∧ demoSecond.1 = none
  ∧ demoSecond.2.1.ID = "7" := by
  refine ⟨?_, ?_, by decide, by decide, by decide, by decide, by decide⟩
  · intro jd op input
    exact nextLoop_ID jd { op with Event := "", Data := none } false input
  · intro jd op input h
    have h1 : (next jd op input).2.1.ID =
        idUpdates op.ID (consumedLines false input) :=
      nextLoop_ID jd { op with Event := "", Data := none } false input
    rw [h1, idUpdates_no_id _ _ h]

/-- Witness for C10: the second record of the demonstration stream has no
id line, and its decode keeps the scratch operation's id. -/
theorem C10_witness_second_record_keeps_id :
    (next jdSample demoFirst.2.1 demoFirst.2.2).2.1.ID = demoFirst.2.1.ID :=
  C10_decoder_never_resets_id.2.1 jdSample demoFirst.2.1 demoFirst.2.2 (by decide)

end Oplogc
